import Mathlib

/-!
Shallow embedding of `src/fantasy_api.py` (hooping-api).

Conventions of the embedding:
* Python numbers are modelled as `ℚ`; `None` as `PyVal.null`; non-numeric
  (string) dict values as `PyVal.str`.
* Python dicts are association lists with unique keys (`pyLookup` is
  `dict.get`); `dict.get(k, d)` is `(pyLookup m k).getD d`.
* Fallible Python code (code that can raise, e.g. `float + str`) returns
  `Except Unit _`; `Except.error ()` is an uncaught exception.
* `round(x, 2)` is embedded as `round2` (round-half-up on exact rationals;
  no statement below depends on a half-way case).
* `datetime` values are rationals counting days since an epoch Monday
  00:00, so `weekday()` is `⌊t⌋ % 7` and `timedelta(days = n)` is `- n`.
-/

namespace FantasyApi

/-- A value stored in one of a player's stat dicts. -/
inductive PyVal where
  | num (q : ℚ)
  | null
  | str (s : String)
deriving DecidableEq

/-- A stat bucket: dict from stat-category code to value. -/
abbrev StatBucket := List (String × PyVal)

/-- Python `dict` lookup (`m.get(k)`): first entry whose key matches. -/
def pyLookup {β : Type} : List (String × β) → String → Option β
  | [], _ => Option.none
  | (k', v) :: rest, k => if k' = k then some v else pyLookup rest k

/-- Python truthiness of a stat value (`bool(v)`). -/
def pyTruthy : PyVal → Bool
  | .num q => q ≠ 0
  | .null => false
  | .str s => s ≠ ""

/-- Embeds `stats.get(stat, 0) or 0`, then used in arithmetic: a falsy value
(absent, `None`, `0`, `""`) contributes `0`; a numeric value contributes
itself; a truthy non-numeric value makes the enclosing arithmetic raise
`TypeError` (`Except.error`). -/
def pyGetOr0 (b : StatBucket) (k : String) : Except Unit ℚ :=
  match (pyLookup b k).getD (PyVal.num 0) with
  | .num q => Except.ok q
  | .null => Except.ok 0
  | .str s => if s = "" then Except.ok 0 else Except.error ()

/-- Embeds `SCORING_WEIGHTS` of `src/fantasy_api.py`, lines 61-77, in source order. -/
def SCORING_WEIGHTS : List (String × ℤ) :=
  [("FGM", 1), ("FGMI", -1), ("FTM", 1), ("FTMI", -1), ("3PM", 1),
   ("OREB", 1), ("REB", 1), ("AST", 1), ("STL", 2), ("BLK", 2),
   ("TO", -2), ("DD", 3), ("TD", 5), ("QD", 10), ("PTS", 1)]

/-- Embedding of Python `round(x, 2)`. -/
def round2 (x : ℚ) : ℚ := (round (x * 100) : ℤ) / 100

/-- Embeds `calculate_fantasy_points` (lines 80-87), generalised over the weight
map it iterates (the source reads the module constant `SCORING_WEIGHTS`):
`if not stats: return 0.0`, then `total += (stats.get(stat, 0) or 0) * weight`
for each `(stat, weight)` in the weights, then `round(total, 2)`. -/
def scoreWith (weights : List (String × ℤ)) (stats : StatBucket) : Except Unit ℚ :=
  if stats = [] then Except.ok 0
  else do
    let total ← weights.foldlM
      (fun (acc : ℚ) (kw : String × ℤ) => do
        let q ← pyGetOr0 stats kw.1
        pure (acc + q * (kw.2 : ℚ)))
      (0 : ℚ)
    pure (round2 total)

/-- Embeds `calculate_fantasy_points(stats)` as called in the source: the weight
map is the module constant `SCORING_WEIGHTS`. -/
def calculate_fantasy_points (stats : StatBucket) : Except Unit ℚ :=
  scoreWith SCORING_WEIGHTS stats

/-- Spec-side reading of a bucket value: a numeric value, else 0
(absent, null and falsy values all read as 0). -/
def specVal (b : StatBucket) (k : String) : ℚ :=
  match pyLookup b k with
  | some (.num q) => q
  | _ => 0

/-- The raw (un-rounded) weighted sum of a bucket under a weight map. -/
def rawScore (weights : List (String × ℤ)) (b : StatBucket) : ℚ :=
  weights.foldl (fun acc kw => acc + specVal b kw.1 * (kw.2 : ℚ)) 0

/-- A bucket none of whose values is a truthy (non-empty) string; on such
buckets the source arithmetic cannot raise. -/
def numericBucket (b : StatBucket) : Bool :=
  b.all (fun kv => match kv.2 with | .str s => s = "" | _ => true)

/-- The value the code reads for one category (`b.get(k, 0)`) is not a
truthy (non-empty) string, so the arithmetic consuming it cannot raise.
Unweighted categories of the bucket are never consulted by `scoreWith`,
so they are irrelevant here. -/
def numericAtKey (b : StatBucket) (k : String) : Bool :=
  match (pyLookup b k).getD (PyVal.num 0) with
  | .str s => s = ""
  | _ => true

/-- Every category of the weight map reads a non-raising value from the
bucket; values stored under unweighted categories are unconstrained. -/
def numericAtKeys (weights : List (String × ℤ)) (b : StatBucket) : Bool :=
  weights.all (fun kw => numericAtKey b kw.1)

/-- Team per-category rollup (lines 273-275 and 336-338 plus the
team-level `round(v, 2)` at lines 279-280 / 346-347): starting from 0, add
`bucket.get(cat, 0) or 0` for each roster player's bucket, then round. It
is applied to the players' `total_stats` for `season_totals` and to their
resolved `proj_total` for `projected_weekly_totals`. -/
def team_stat_rollup (cat : String) (buckets : List StatBucket) : Except Unit ℚ := do
  let s ← buckets.foldlM (fun (acc : ℚ) b => do
    let q ← pyGetOr0 b cat
    pure (acc + q)) (0 : ℚ)
  pure (round2 s)

/-- Team FPTS rollup (lines 271-272 and 332-333 plus the team-level
rounding): sum of `calculate_fantasy_points` of each roster player's
bucket, then round. Applied to `total_stats` buckets for
`season_totals.FPTS` and to resolved `proj_total` buckets for
`projected_weekly_totals.FPTS`. -/
def team_fpts_rollup (buckets : List StatBucket) : Except Unit ℚ := do
  let s ← buckets.foldlM (fun (acc : ℚ) b => do
    let f ← calculate_fantasy_points b
    pure (acc + f)) (0 : ℚ)
  pure (round2 s)

/-- Spec-side team per-category rollup as the claim states it: the exact
arithmetic sum of the players' (un-rounded) values, missing values
defaulting to 0, rounded once at the team level. -/
def specTeamStat (cat : String) (buckets : List StatBucket) : ℚ :=
  round2 ((buckets.map (fun b => specVal b cat)).sum)

/-- Spec-side team FPTS rollup as the claim states it: the exact sum of
the players' un-rounded weighted scores, rounded only once at the team
level. -/
def specTeamFPTS (buckets : List StatBucket) : ℚ :=
  round2 ((buckets.map (fun b => rawScore SCORING_WEIGHTS b)).sum)

/-- Embeds `fantasy_points_per_game` of `rosters_detailed` (lines 227-232):
`fantasy_points_total = calculate_fantasy_points(total_stats)`;
`gp = total_stats.get("GP", 0)` (no `or 0` here);
`round(fantasy_points_total / gp, 2) if gp > 0 else 0`. A present but
non-numeric `GP` makes the Python comparison `gp > 0` raise. -/
def fantasy_points_per_game (total_stats : StatBucket) : Except Unit ℚ := do
  let fpt ← calculate_fantasy_points total_stats
  match pyLookup total_stats "GP" with
  | Option.none => pure 0
  | some (.num g) => if 0 < g then pure (round2 (fpt / g)) else pure 0
  | some .null => Except.error ()
  | some (.str _) => Except.error ()

/-- Claimed per-game fantasy-point estimate, following the claim's words:
use an explicit per-game projection when it exists; else, from a positive
season-total projection, divide by estimated games played =
`round(seasonTotal / referenceAvg)` (the reference per-game value when
available, else the constant 82), floored at 1; else no estimate (null). -/
def claimed_per_game_estimate
    (explicitPerGame seasonTotal referenceAvg : Option ℚ) : Option ℚ :=
  match explicitPerGame with
  | some v => some v
  | Option.none =>
    match seasonTotal with
    | some s =>
      if 0 < s then
        let estRaw : ℤ :=
          match referenceAvg with
          | some r => round (s / r)
          | Option.none => 82
        some (s / (max 1 estRaw : ℤ))
      else Option.none
    | Option.none => Option.none

/-- The nested season-and-year-keyed projection dict
`player.stats.get("2026_projected", ...)`: its `total` and `avg` buckets,
each possibly absent. -/
structure YearProjected where
  total : Option StatBucket
  avg : Option StatBucket
deriving DecidableEq

/-- The projection-relevant part of `player.stats`: the nested
`"2026_projected"` entry and the legacy flat `"projected_total"` /
`"projected_avg"` entries, each possibly absent. -/
structure ProjSource where
  yearProjected : Option YearProjected
  projected_total : Option StatBucket
  projected_avg : Option StatBucket
deriving DecidableEq

/-- Embeds `player.stats.get(f"{YEAR}_projected", \x7b\x7d).get("total", \x7b\x7d)`. -/
def yearProjTotal (p : ProjSource) : StatBucket :=
  (p.yearProjected.bind (fun yp => yp.total)).getD []

/-- Embeds `player.stats.get(f"{YEAR}_projected", \x7b\x7d).get("avg", \x7b\x7d)`. -/
def yearProjAvg (p : ProjSource) : StatBucket :=
  (p.yearProjected.bind (fun yp => yp.avg)).getD []

/-- Embeds `proj_total` resolution (lines 209-213 and 325-329): the Python `or`
chain `nested or legacy or \x7b\x7d`, which picks the first NON-EMPTY
(truthy) dict. -/
def resolveProjTotal (p : ProjSource) : StatBucket :=
  if yearProjTotal p ≠ [] then yearProjTotal p
  else if p.projected_total.getD [] ≠ [] then p.projected_total.getD []
  else []

/-- Embeds `proj_avg` resolution (lines 214-218), same `or` chain on the `avg`
variant. -/
def resolveProjAvg (p : ProjSource) : StatBucket :=
  if yearProjAvg p ≠ [] then yearProjAvg p
  else if p.projected_avg.getD [] ≠ [] then p.projected_avg.getD []
  else []

/-- The claim's fallback chain, as stated: the nested bucket if PRESENT
(whether or not it is empty), else the legacy bucket if present, else the
empty bucket. -/
def claimedResolveProjTotal (p : ProjSource) : StatBucket :=
  match p.yearProjected.bind (fun yp => yp.total) with
  | some bkt => bkt
  | Option.none =>
    match p.projected_total with
    | some bkt => bkt
    | Option.none => []

/-- The amended chain: the nested bucket if present AND non-empty, else
the legacy bucket if present and non-empty, else the empty bucket. -/
def amendedResolveProjTotal (p : ProjSource) : StatBucket :=
  match p.yearProjected.bind (fun yp => yp.total) with
  | some bkt =>
    if bkt ≠ [] then bkt
    else match p.projected_total with
         | some l => if l ≠ [] then l else []
         | Option.none => []
  | Option.none =>
    match p.projected_total with
    | some l => if l ≠ [] then l else []
    | Option.none => []

/-- The amended chain for the `avg` variant. -/
def amendedResolveProjAvg (p : ProjSource) : StatBucket :=
  match p.yearProjected.bind (fun yp => yp.avg) with
  | some bkt =>
    if bkt ≠ [] then bkt
    else match p.projected_avg with
         | some l => if l ≠ [] then l else []
         | Option.none => []
  | Option.none =>
    match p.projected_avg with
    | some l => if l ≠ [] then l else []
    | Option.none => []

/-- Embeds `today.weekday()`: days are counted from an epoch Monday, so the
weekday index of the date part is `⌊t⌋ % 7`. -/
def weekday (t : ℚ) : ℤ := ⌊t⌋ % 7

/-- Embeds `start_of_week = today - timedelta(days=today.weekday())` (lines
196, 295). Note it keeps `today`'s time of day. -/
def startOfWeek (t : ℚ) : ℚ := t - ((weekday t : ℤ) : ℚ)

/-- Embeds `end_of_week = start_of_week + timedelta(days=6)` (lines 197, 296). -/
def endOfWeek (t : ℚ) : ℚ := startOfWeek t + 6

/-- One schedule entry's test inside the `games_this_week` comprehension
(lines 221-224): `g.get("date") and start_of_week <= g["date"] <= end_of_week`. -/
def gameInWindow (t : ℚ) : Option ℚ → Bool
  | Option.none => false
  | some d => decide (startOfWeek t ≤ d) && decide (d ≤ endOfWeek t)

/-- Embeds `games_this_week` (lines 221-224): the number of schedule entries
whose date passes `gameInWindow`. -/
def gamesThisWeek (t : ℚ) (sched : List (Option ℚ)) : ℕ :=
  (sched.filter (gameInWindow t)).length

/-- The claimed count: entries dated any time from the most recent Monday
00:00 at/before `t` (`mondayMidnight t`) through the following Sunday,
end of day inclusive. -/
def mondayMidnight (t : ℚ) : ℚ := ((⌊t⌋ - weekday t : ℤ) : ℚ)

/-- The claim's membership test for one schedule entry. -/
def claimedGameInWindow (t : ℚ) : Option ℚ → Bool
  | Option.none => false
  | some d => decide (mondayMidnight t ≤ d) && decide (d < mondayMidnight t + 7)

/-- The claimed games-this-week count. -/
def claimedGamesThisWeek (t : ℚ) (sched : List (Option ℚ)) : ℕ :=
  (sched.filter (claimedGameInWindow t)).length

/-- The cross-request roster snapshot: dict from team name to the list of
player names (`last_snapshot` / `current`, lines 153, 160). -/
abbrev Snapshot := List (String × List String)

/-- Embeds `last_snapshot.get(team, [])` (line 166). -/
def snapshotGet (s : Snapshot) (t : String) : List String :=
  (pyLookup s t).getD []

/-- Embeds `list(set(players) - set(old_players))` (line 167), as a duplicate-free
list; Python's set iteration order is unspecified, so statements about it
are membership statements. -/
def addedOf (cur old : List String) : List String :=
  cur.dedup.filter (fun p => decide (p ∉ old))

/-- Embeds `list(set(old_players) - set(players))` (line 168). -/
def removedOf (cur old : List String) : List String :=
  old.dedup.filter (fun p => decide (p ∉ cur))

/-- The value of the `/changes` endpoint: the `changes` dict and the
snapshot stored for the next call. -/
structure ChangesResult where
  changes : List (String × (List String × List String))
  newSnapshot : Snapshot
deriving DecidableEq

/-- The per-team loop of `/changes` (lines 165-179). `webhook` is whether
`DISCORD_WEBHOOK_URL` is configured; `postRaises team` is whether
`requests.post` for that team's message raises (network failure). The
post is NOT wrapped in try/except, so a raise aborts the whole handler
(`Except.error ()`). -/
def diffTeams (prev : Snapshot) (webhook : Bool) (postRaises : String → Bool) :
    List (String × List String) →
    Except Unit (List (String × (List String × List String)))
  | [] => Except.ok []
  | (team, players) :: rest =>
    if addedOf players (snapshotGet prev team) ≠ [] ∨
       removedOf players (snapshotGet prev team) ≠ [] then
      if webhook && postRaises team then Except.error ()
      else
        (diffTeams prev webhook postRaises rest).map
          (fun tail =>
            (team, (addedOf players (snapshotGet prev team),
                    removedOf players (snapshotGet prev team))) :: tail)
    else diffTeams prev webhook postRaises rest

/-- The `/changes` endpoint (lines 155-182) as a state transformer: takes
the stored `last_snapshot` (`prev`) and the freshly fetched roster
mapping (`current`); returns the reported changes and the snapshot stored
for the next call, or `Except.error ()` when an unhandled exception
escapes (in which case `last_snapshot` at line 181 is never reached and
the stored snapshot stays `prev`). The diff runs only `if last_snapshot:`
— i.e. only when `prev` is non-empty. -/
def changes (webhook : Bool) (postRaises : String → Bool)
    (prev current : Snapshot) : Except Unit ChangesResult :=
  if prev = [] then Except.ok ⟨[], current⟩
  else (diffTeams prev webhook postRaises current).map (fun c => ⟨c, current⟩)

end FantasyApi

namespace FantasyApi

/-! ### Helper lemmas -/

theorem mem_addedOf {x : String} {cur old : List String} :
    x ∈ addedOf cur old ↔ x ∈ cur ∧ x ∉ old := by
  simp [addedOf, List.mem_filter, List.mem_dedup]

theorem mem_removedOf {x : String} {cur old : List String} :
    x ∈ removedOf cur old ↔ x ∈ old ∧ x ∉ cur := by
  simp [removedOf, List.mem_filter, List.mem_dedup]

theorem pyLookup_mem {β : Type} {l : List (String × β)} {k : String} {v : β}
    (h : pyLookup l k = some v) : (k, v) ∈ l := by
  induction l with
  | nil => simp [pyLookup] at h
  | cons hd tl ih =>
    obtain ⟨k', v'⟩ := hd
    by_cases hk : k' = k
    · subst hk
      simp [pyLookup] at h
      subst h
      exact List.mem_cons_self _ _
    · simp [pyLookup, hk] at h
      exact List.mem_cons_of_mem _ (ih h)

theorem pyLookup_eq_of_mem_nodup {β : Type} {l : List (String × β)}
    (hnd : (l.map Prod.fst).Nodup) {k : String} {v : β}
    (h : (k, v) ∈ l) : pyLookup l k = some v := by
  induction l with
  | nil => simp at h
  | cons hd tl ih =>
    obtain ⟨k', v'⟩ := hd
    simp only [List.map_cons, List.nodup_cons] at hnd
    rcases List.mem_cons.mp h with heq | hmem
    · obtain ⟨rfl, rfl⟩ := Prod.mk.injEq .. ▸ heq
      simp [pyLookup]
    · have hk : k' ≠ k := by
        rintro rfl
        exact hnd.1 (List.mem_map.mpr ⟨(k', v), hmem, rfl⟩)
      simp [pyLookup, hk]
      exact ih hnd.2 hmem

theorem pyLookup_eq_none_iff {β : Type} {l : List (String × β)} {k : String} :
    pyLookup l k = Option.none ↔ k ∉ l.map Prod.fst := by
  induction l with
  | nil => simp [pyLookup]
  | cons hd tl ih =>
    obtain ⟨k', v'⟩ := hd
    by_cases hk : k' = k
    · subst hk
      simp [pyLookup]
    · simp [pyLookup, hk, ih, Ne.symm hk]

theorem pyGetOr0_numeric {b : StatBucket} (hb : numericBucket b = true)
    (k : String) : pyGetOr0 b k = Except.ok (specVal b k) := by
  cases h : pyLookup b k with
  | none => simp [pyGetOr0, specVal, h]
  | some v =>
    have hmem := pyLookup_mem h
    have hall := List.all_eq_true.mp hb ⟨k, v⟩ hmem
    cases v with
    | num q => simp [pyGetOr0, specVal, h]
    | null => simp [pyGetOr0, specVal, h]
    | str s =>
      have hs : s = "" := by simpa using hall
      simp [pyGetOr0, specVal, h, hs]

theorem pyGetOr0_of_numericAtKey {b : StatBucket} {k : String}
    (h : numericAtKey b k = true) : pyGetOr0 b k = Except.ok (specVal b k) := by
  cases hlk : pyLookup b k with
  | none => simp [pyGetOr0, specVal, hlk]
  | some v =>
    cases v with
    | num q => simp [pyGetOr0, specVal, hlk]
    | null => simp [pyGetOr0, specVal, hlk]
    | str s =>
      have hs : s = "" := by simpa [numericAtKey, hlk] using h
      simp [pyGetOr0, specVal, hlk, hs]

end FantasyApi

namespace FantasyApi

theorem round2_zero : round2 0 = 0 := by
  simp [round2]

theorem specVal_nil (k : String) : specVal [] k = 0 := rfl

theorem rawScore_nil (weights : List (String × ℤ)) : rawScore weights [] = 0 := by
  have h : ∀ (ws : List (String × ℤ)) (acc : ℚ),
      ws.foldl (fun acc kw => acc + specVal [] kw.1 * (kw.2 : ℚ)) acc = acc := by
    intro ws
    induction ws with
    | nil => intro acc; rfl
    | cons kw tl ih => intro acc; simp [List.foldl, specVal_nil, ih]
  exact h weights 0

theorem foldlM_score_eq {stats : StatBucket} (hb : numericBucket stats = true) :
    ∀ (ws : List (String × ℤ)) (acc : ℚ),
      (ws.foldlM
        (fun (acc : ℚ) (kw : String × ℤ) => do
          let q ← pyGetOr0 stats kw.1
          pure (acc + q * (kw.2 : ℚ)))
        acc : Except Unit ℚ)
      = Except.ok (ws.foldl (fun acc kw => acc + specVal stats kw.1 * (kw.2 : ℚ)) acc) := by
  intro ws
  induction ws with
  | nil => intro acc; rfl
  | cons kw tl ih =>
    intro acc
    have hq : pyGetOr0 stats kw.1 = Except.ok (specVal stats kw.1) :=
      pyGetOr0_numeric hb kw.1
    simp only [List.foldlM]
    rw [hq]
    simp only [List.foldl_cons]
    exact ih _

theorem scoreWith_numeric (weights : List (String × ℤ)) {stats : StatBucket}
    (hb : numericBucket stats = true) :
    scoreWith weights stats = Except.ok (round2 (rawScore weights stats)) := by
  by_cases hs : stats = []
  · subst hs
    simp [scoreWith, rawScore_nil, round2_zero]
  · simp only [scoreWith, if_neg hs, foldlM_score_eq hb]
    rfl

theorem calculate_fantasy_points_numeric {stats : StatBucket}
    (hb : numericBucket stats = true) :
    calculate_fantasy_points stats = Except.ok (round2 (rawScore SCORING_WEIGHTS stats)) :=
  scoreWith_numeric SCORING_WEIGHTS hb

theorem foldlM_score_eq_at {stats : StatBucket} :
    ∀ (ws : List (String × ℤ)), (∀ kw ∈ ws, numericAtKey stats kw.1 = true) →
      ∀ (acc : ℚ),
      (ws.foldlM
        (fun (acc : ℚ) (kw : String × ℤ) => do
          let q ← pyGetOr0 stats kw.1
          pure (acc + q * (kw.2 : ℚ)))
        acc : Except Unit ℚ)
      = Except.ok (ws.foldl (fun acc kw => acc + specVal stats kw.1 * (kw.2 : ℚ)) acc) := by
  intro ws
  induction ws with
  | nil => intro _ acc; rfl
  | cons kw tl ih =>
    intro hks acc
    have hq : pyGetOr0 stats kw.1 = Except.ok (specVal stats kw.1) :=
      pyGetOr0_of_numericAtKey (hks kw (List.mem_cons_self _ _))
    simp only [List.foldlM]
    rw [hq]
    simp only [List.foldl_cons]
    exact ih (fun kw' h' => hks kw' (List.mem_cons_of_mem _ h')) _

theorem scoreWith_numericAt (weights : List (String × ℤ)) {stats : StatBucket}
    (hb : numericAtKeys weights stats = true) :
    scoreWith weights stats = Except.ok (round2 (rawScore weights stats)) := by
  by_cases hs : stats = []
  · subst hs
    simp [scoreWith, rawScore_nil, round2_zero]
  · have hks : ∀ kw ∈ weights, numericAtKey stats kw.1 = true := fun kw hkw =>
      List.all_eq_true.mp hb kw hkw
    simp only [scoreWith, if_neg hs, foldlM_score_eq_at weights hks]
    rfl

end FantasyApi

namespace FantasyApi

theorem foldlM_stat_eq (cat : String) :
    ∀ (buckets : List StatBucket), (∀ b ∈ buckets, numericBucket b = true) →
      ∀ (acc : ℚ),
      (buckets.foldlM (fun (acc : ℚ) b => do
          let q ← pyGetOr0 b cat
          pure (acc + q)) acc : Except Unit ℚ)
      = Except.ok (acc + (buckets.map (fun b => specVal b cat)).sum) := by
  intro buckets
  induction buckets with
  | nil =>
    intro _ acc
    simp only [List.foldlM, List.map_nil, List.sum_nil, add_zero]
    rfl
  | cons b tl ih =>
    intro hnum acc
    have hq : pyGetOr0 b cat = Except.ok (specVal b cat) :=
      pyGetOr0_numeric (hnum b (List.mem_cons_self _ _)) cat
    simp only [List.foldlM]
    rw [hq]
    have hrec := ih (fun b' hb' => hnum b' (List.mem_cons_of_mem _ hb')) (acc + specVal b cat)
    show List.foldlM (fun (acc : ℚ) b => do
        let q ← pyGetOr0 b cat
        pure (acc + q)) (acc + specVal b cat) tl
      = Except.ok (acc + (List.map (fun b => specVal b cat) (b :: tl)).sum)
    rw [hrec]
    simp [add_assoc]

theorem team_stat_rollup_numeric (cat : String) {buckets : List StatBucket}
    (hnum : ∀ b ∈ buckets, numericBucket b = true) :
    team_stat_rollup cat buckets = Except.ok (specTeamStat cat buckets) := by
  simp only [team_stat_rollup, specTeamStat]
  rw [foldlM_stat_eq cat buckets hnum 0]
  simp

theorem foldlM_fpts_eq :
    ∀ (buckets : List StatBucket), (∀ b ∈ buckets, numericBucket b = true) →
      ∀ (acc : ℚ),
      (buckets.foldlM (fun (acc : ℚ) b => do
          let f ← calculate_fantasy_points b
          pure (acc + f)) acc : Except Unit ℚ)
      = Except.ok (acc + (buckets.map (fun b => round2 (rawScore SCORING_WEIGHTS b))).sum) := by
  intro buckets
  induction buckets with
  | nil =>
    intro _ acc
    simp only [List.foldlM, List.map_nil, List.sum_nil, add_zero]
    rfl
  | cons b tl ih =>
    intro hnum acc
    have hq : calculate_fantasy_points b
        = Except.ok (round2 (rawScore SCORING_WEIGHTS b)) :=
      calculate_fantasy_points_numeric (hnum b (List.mem_cons_self _ _))
    simp only [List.foldlM]
    rw [hq]
    have hrec := ih (fun b' hb' => hnum b' (List.mem_cons_of_mem _ hb'))
      (acc + round2 (rawScore SCORING_WEIGHTS b))
    show List.foldlM (fun (acc : ℚ) b => do
        let f ← calculate_fantasy_points b
        pure (acc + f)) (acc + round2 (rawScore SCORING_WEIGHTS b)) tl
      = Except.ok (acc + (List.map (fun b => round2 (rawScore SCORING_WEIGHTS b)) (b :: tl)).sum)
    rw [hrec]
    simp [add_assoc]

theorem team_fpts_rollup_numeric {buckets : List StatBucket}
    (hnum : ∀ b ∈ buckets, numericBucket b = true) :
    team_fpts_rollup buckets
      = Except.ok (round2 ((buckets.map (fun b => round2 (rawScore SCORING_WEIGHTS b))).sum)) := by
  simp only [team_fpts_rollup]
  rw [foldlM_fpts_eq buckets hnum 0]
  simp

end FantasyApi

namespace FantasyApi

theorem diffTeams_mem_spec (prev : Snapshot) (wb : Bool) (pr : String → Bool) :
    ∀ (l : List (String × List String)) (c : List (String × (List String × List String))),
      diffTeams prev wb pr l = Except.ok c →
      ∀ t e, (t, e) ∈ c → ∃ ps, (t, ps) ∈ l ∧
        e = (addedOf ps (snapshotGet prev t), removedOf ps (snapshotGet prev t)) ∧
        (addedOf ps (snapshotGet prev t) ≠ [] ∨
          removedOf ps (snapshotGet prev t) ≠ []) := by
  intro l
  induction l with
  | nil =>
    intro c hc t e he
    simp only [diffTeams] at hc
    cases hc
    simp at he
  | cons hd tl ih =>
    obtain ⟨team, players⟩ := hd
    intro c hc t e he
    simp only [diffTeams] at hc
    by_cases hne : addedOf players (snapshotGet prev team) ≠ [] ∨
        removedOf players (snapshotGet prev team) ≠ []
    · rw [if_pos hne] at hc
      by_cases hw : (wb && pr team) = true
      · rw [if_pos hw] at hc
        cases hc
      · rw [if_neg hw] at hc
        cases hrec : diffTeams prev wb pr tl with
        | error u => rw [hrec] at hc; cases hc
        | ok tail =>
          rw [hrec] at hc
          cases hc
          rcases List.mem_cons.mp he with heq | hmem
          · obtain ⟨rfl, rfl⟩ : t = team ∧
                e = (addedOf players (snapshotGet prev team),
                     removedOf players (snapshotGet prev team)) := by
              exact ⟨congrArg Prod.fst heq, congrArg Prod.snd heq⟩
            exact ⟨players, List.mem_cons_self _ _, rfl, hne⟩
          · obtain ⟨ps, hmem', rest⟩ := ih tail hrec t e hmem
            exact ⟨ps, List.mem_cons_of_mem _ hmem', rest⟩
    · rw [if_neg hne] at hc
      obtain ⟨ps, hmem', rest⟩ := ih c hc t e he
      exact ⟨ps, List.mem_cons_of_mem _ hmem', rest⟩

theorem diffTeams_mem_of (prev : Snapshot) (wb : Bool) (pr : String → Bool) :
    ∀ (l : List (String × List String)) (c : List (String × (List String × List String))),
      diffTeams prev wb pr l = Except.ok c →
      ∀ t ps, (t, ps) ∈ l →
        (addedOf ps (snapshotGet prev t) ≠ [] ∨
          removedOf ps (snapshotGet prev t) ≠ []) →
        (t, (addedOf ps (snapshotGet prev t),
             removedOf ps (snapshotGet prev t))) ∈ c := by
  intro l
  induction l with
  | nil =>
    intro c _ t ps hmem
    simp at hmem
  | cons hd tl ih =>
    obtain ⟨team, players⟩ := hd
    intro c hc t ps hmem hne
    simp only [diffTeams] at hc
    rcases List.mem_cons.mp hmem with heq | hmem'
    · obtain ⟨rfl, rfl⟩ : t = team ∧ ps = players :=
        ⟨congrArg Prod.fst heq, congrArg Prod.snd heq⟩
      rw [if_pos hne] at hc
      by_cases hw : (wb && pr t) = true
      · rw [if_pos hw] at hc
        cases hc
      · rw [if_neg hw] at hc
        cases hrec : diffTeams prev wb pr tl with
        | error u => rw [hrec] at hc; cases hc
        | ok tail =>
          rw [hrec] at hc
          cases hc
          exact List.mem_cons_self _ _
    · by_cases hne0 : addedOf players (snapshotGet prev team) ≠ [] ∨
          removedOf players (snapshotGet prev team) ≠ []
      · rw [if_pos hne0] at hc
        by_cases hw : (wb && pr team) = true
        · rw [if_pos hw] at hc
          cases hc
        · rw [if_neg hw] at hc
          cases hrec : diffTeams prev wb pr tl with
          | error u => rw [hrec] at hc; cases hc
          | ok tail =>
            rw [hrec] at hc
            cases hc
            exact List.mem_cons_of_mem _ (ih tail hrec t ps hmem' hne)
      · rw [if_neg hne0] at hc
        exact ih c hc t ps hmem' hne

theorem diffTeams_key_mem (prev : Snapshot) (wb : Bool) (pr : String → Bool)
    {l : List (String × List String)}
    {c : List (String × (List String × List String))}
    (hc : diffTeams prev wb pr l = Except.ok c)
    {t : String} {e : List String × List String} (he : (t, e) ∈ c) :
    t ∈ l.map Prod.fst := by
  obtain ⟨ps, hmem, -, -⟩ := diffTeams_mem_spec prev wb pr l c hc t e he
  exact List.mem_map.mpr ⟨(t, ps), hmem, rfl⟩

theorem diffTeams_no_raise (prev : Snapshot) (wb : Bool) (pr : String → Bool)
    (hpr : ∀ t, pr t = false) :
    ∀ (l : List (String × List String)),
      diffTeams prev wb pr l = diffTeams prev false pr l := by
  intro l
  induction l with
  | nil => rfl
  | cons hd tl ih =>
    obtain ⟨team, players⟩ := hd
    simp only [diffTeams, hpr team, Bool.and_false, Bool.false_eq_true, if_false, ih]

end FantasyApi

namespace FantasyApi

theorem floor_startOfWeek (t : ℚ) : ⌊startOfWeek t⌋ = ⌊t⌋ - weekday t := by
  simp [startOfWeek, Int.floor_sub_int]

theorem startOfWeek_monday (t : ℚ) : ⌊startOfWeek t⌋ % 7 = 0 := by
  rw [floor_startOfWeek]
  unfold weekday
  omega

theorem startOfWeek_frac (t : ℚ) :
    startOfWeek t - (⌊startOfWeek t⌋ : ℚ) = t - (⌊t⌋ : ℚ) := by
  rw [floor_startOfWeek]
  unfold startOfWeek
  push_cast
  ring

theorem weekday_nonneg (t : ℚ) : 0 ≤ weekday t :=
  Int.emod_nonneg _ (by norm_num)

theorem weekday_lt (t : ℚ) : weekday t < 7 :=
  Int.emod_lt_of_pos _ (by norm_num)

theorem startOfWeek_le (t : ℚ) : startOfWeek t ≤ t := by
  unfold startOfWeek
  have h : (0 : ℚ) ≤ ((weekday t : ℤ) : ℚ) := by
    exact_mod_cast weekday_nonneg t
  linarith

theorem lt_startOfWeek_add_seven (t : ℚ) : t < startOfWeek t + 7 := by
  unfold startOfWeek
  have h : ((weekday t : ℤ) : ℚ) < 7 := by
    exact_mod_cast weekday_lt t
  linarith

theorem gamesThisWeek_nil (t : ℚ) : gamesThisWeek t [] = 0 := rfl

theorem gamesThisWeek_cons_some (t d : ℚ) (sched : List (Option ℚ)) :
    gamesThisWeek t (some d :: sched)
      = (if startOfWeek t ≤ d ∧ d ≤ endOfWeek t then 1 else 0)
        + gamesThisWeek t sched := by
  by_cases h1 : startOfWeek t ≤ d <;> by_cases h2 : d ≤ endOfWeek t <;>
    simp [gamesThisWeek, gameInWindow, h1, h2, List.filter_cons, Nat.add_comm]

theorem gamesThisWeek_cons_none (t : ℚ) (sched : List (Option ℚ)) :
    gamesThisWeek t (Option.none :: sched) = gamesThisWeek t sched := by
  simp [gamesThisWeek, gameInWindow, List.filter_cons]

end FantasyApi

namespace FantasyApi

/-- C5: the first-ever diff invocation (no stored snapshot) returns an
empty change set regardless of the roster contents and, as its side
effect, stores the currently observed team-to-player-names mapping as the
baseline for the next call. -/
theorem changes_first_call_baseline (wb : Bool) (pr : String → Bool)
    (cur : Snapshot) : changes wb pr [] cur = Except.ok ⟨[], cur⟩ := by
  simp [changes]

/-- C4: on a diff invocation in the Tracking state (a stored snapshot is
held; in the code's representation, `last_snapshot` is non-empty), and
for a successfully returned report `r`: the stored snapshot is replaced
with the current mapping regardless of whether changes were found; every
reported team's `added` is exactly current minus previous players and its
`removed` exactly previous minus current (by name); and a current team
appears in the report exactly when its `added` or `removed` is
non-empty. -/
theorem changes_tracking_diff_correct (wb : Bool) (pr : String → Bool)
    (prev cur : Snapshot) (r : ChangesResult)
    (hprev : prev ≠ [])
    (hnd : (cur.map Prod.fst).Nodup)
    (hok : changes wb pr prev cur = Except.ok r) :
    r.newSnapshot = cur ∧
    (∀ t a rm, (t, (a, rm)) ∈ r.changes →
        (∀ x, x ∈ a ↔ x ∈ snapshotGet cur t ∧ x ∉ snapshotGet prev t) ∧
        (∀ x, x ∈ rm ↔ x ∈ snapshotGet prev t ∧ x ∉ snapshotGet cur t)) ∧
    (∀ t ps, (t, ps) ∈ cur →
        ((∃ e, (t, e) ∈ r.changes) ↔
          (addedOf ps (snapshotGet prev t) ≠ [] ∨
           removedOf ps (snapshotGet prev t) ≠ []))) := by
  rw [changes, if_neg hprev] at hok
  cases hrec : diffTeams prev wb pr cur with
  | error u => rw [hrec] at hok; cases hok
  | ok c =>
    rw [hrec] at hok
    have hr : (⟨c, cur⟩ : ChangesResult) = r := Except.ok.inj hok
    subst hr
    refine ⟨rfl, ?_, ?_⟩
    · intro t a rm hmem
      obtain ⟨ps, hps, he, hne⟩ := diffTeams_mem_spec prev wb pr cur c hrec t (a, rm) hmem
      have hlk : pyLookup cur t = some ps := pyLookup_eq_of_mem_nodup hnd hps
      have hg : snapshotGet cur t = ps := by simp [snapshotGet, hlk]
      have ha : a = addedOf ps (snapshotGet prev t) := congrArg Prod.fst he
      have hrm : rm = removedOf ps (snapshotGet prev t) := congrArg Prod.snd he
      constructor
      · intro x
        rw [ha, mem_addedOf, hg]
      · intro x
        rw [hrm, mem_removedOf, hg]
    · intro t ps hps
      constructor
      · rintro ⟨e, he⟩
        obtain ⟨ps', hps', -, hne⟩ := diffTeams_mem_spec prev wb pr cur c hrec t e he
        have h1 : pyLookup cur t = some ps := pyLookup_eq_of_mem_nodup hnd hps
        have h2 : pyLookup cur t = some ps' := pyLookup_eq_of_mem_nodup hnd hps'
        rw [h1] at h2
        obtain rfl : ps = ps' := Option.some.inj h2
        exact hne
      · intro hne
        exact ⟨_, diffTeams_mem_of prev wb pr cur c hrec t ps hps hne⟩

/-- Witness for C4: team A had \x7bX, Y\x7d and now has \x7bY, Z\x7d; the
call reports added [Z], removed [X], and stores the current mapping. -/
theorem changes_tracking_diff_correct_witness :
    changes false (fun _ => false) [("A", ["X", "Y"])] [("A", ["Y", "Z"])]
        = Except.ok ⟨[("A", (["Z"], ["X"]))], [("A", ["Y", "Z"])]⟩ ∧
    (⟨[("A", (["Z"], ["X"]))], [("A", ["Y", "Z"])]⟩ : ChangesResult).newSnapshot
        = [("A", ["Y", "Z"])] ∧
    ("Z" ∈ (["Z"] : List String) ↔
      "Z" ∈ snapshotGet [("A", ["Y", "Z"])] "A" ∧
      "Z" ∉ snapshotGet [("A", ["X", "Y"])] "A") := by
  have hok : changes false (fun _ => false) [("A", ["X", "Y"])] [("A", ["Y", "Z"])]
      = Except.ok ⟨[("A", (["Z"], ["X"]))], [("A", ["Y", "Z"])]⟩ := rfl
  have h := changes_tracking_diff_correct false (fun _ => false)
    [("A", ["X", "Y"])] [("A", ["Y", "Z"])]
    ⟨[("A", (["Z"], ["X"]))], [("A", ["Y", "Z"])]⟩
    (by decide) (by decide) hok
  exact ⟨hok, h.1, (h.2.1 "A" ["Z"] ["X"] (by decide)).1 "Z"⟩

/-- C10 (implicit): a team name present in the stored previous snapshot
but absent from the currently fetched league data produces no entry in
the returned changes (the loop iterates only over current teams), and the
replaced snapshot no longer holds it. -/
theorem changes_vanished_team_silent (wb : Bool) (pr : String → Bool)
    (prev cur : Snapshot) (r : ChangesResult) (t : String)
    (hprev : prev ≠ [])
    (hok : changes wb pr prev cur = Except.ok r)
    (ht : t ∈ prev.map Prod.fst)
    (hcur : t ∉ cur.map Prod.fst) :
    pyLookup r.changes t = Option.none ∧
    r.newSnapshot = cur ∧
    pyLookup r.newSnapshot t = Option.none := by
  rw [changes, if_neg hprev] at hok
  cases hrec : diffTeams prev wb pr cur with
  | error u => rw [hrec] at hok; cases hok
  | ok c =>
    rw [hrec] at hok
    have hr : (⟨c, cur⟩ : ChangesResult) = r := Except.ok.inj hok
    subst hr
    refine ⟨?_, rfl, pyLookup_eq_none_iff.mpr hcur⟩
    rw [pyLookup_eq_none_iff]
    intro hkey
    obtain ⟨⟨t', e⟩, hmem, hfst⟩ := List.mem_map.mp hkey
    cases hfst
    exact hcur (diffTeams_key_mem prev wb pr hrec hmem)

/-- Witness for C10: team B was in the previous snapshot but vanished
from the current league data; it is not reported and not retained. -/
theorem changes_vanished_team_silent_witness :
    pyLookup (⟨[], [("A", ["X"])]⟩ : ChangesResult).changes "B" = Option.none ∧
    (⟨[], [("A", ["X"])]⟩ : ChangesResult).newSnapshot = [("A", ["X"])] ∧
    pyLookup (⟨[], [("A", ["X"])]⟩ : ChangesResult).newSnapshot "B" = Option.none :=
  changes_vanished_team_silent false (fun _ => false)
    [("A", ["X"]), ("B", ["W"])] [("A", ["X"])] ⟨[], [("A", ["X"])]⟩ "B"
    (by decide) rfl (by decide) (by decide)

end FantasyApi

namespace FantasyApi

/-- Counterexample to C6: with the webhook configured and a roster change
present, a raising `requests.post` (no try/except around lines 173-179)
turns the whole request into an error — the report is not returned and
the snapshot update at line 181 never runs — whereas the identical call
with a non-raising post succeeds. -/
theorem notification_failure_not_swallowed_cex :
    changes true (fun _ => true) [("A", ["X"])] [("A", ["Y"])]
      = Except.error () ∧
    changes true (fun _ => false) [("A", ["X"])] [("A", ["Y"])]
      = Except.ok ⟨[("A", (["Y"], ["X"]))], [("A", ["Y"])]⟩ :=
  ⟨rfl, rfl⟩

/-- C6 amended: a dispatch that completes without raising (any HTTP
response; the response status is never checked) has no effect at all on
the returned report or on the stored snapshot — the result equals that of
the same call with no webhook configured. (When the dispatch raises, the
request fails and the snapshot is left unreplaced, as the counterexample
shows.) -/
theorem notification_no_raise_no_effect (wb : Bool) (pr : String → Bool)
    (prev cur : Snapshot) (hpr : ∀ t, pr t = false) :
    changes wb pr prev cur = changes false pr prev cur := by
  by_cases hp : prev = [] <;>
    simp [changes, hp, diffTeams_no_raise prev wb pr hpr]

/-- Witness for C6's amended theorem at a concrete changed roster. -/
theorem notification_no_raise_no_effect_witness :
    changes true (fun _ => false) [("A", ["X"])] [("A", ["Y"])]
      = changes false (fun _ => false) [("A", ["X"])] [("A", ["Y"])] :=
  notification_no_raise_no_effect true (fun _ => false)
    [("A", ["X"])] [("A", ["Y"])] (fun _ => rfl)

end FantasyApi

namespace FantasyApi

/-- Counterexample to C7: a malformed (non-empty string) value in a
weighted category makes `calculate_fantasy_points` raise (Python
`TypeError` from `total += "x" * 1`) instead of being treated as 0; in
particular the claimed "never raises / malformed is 0" fails. -/
theorem score_raises_on_malformed_cex :
    calculate_fantasy_points [("FGM", PyVal.str "x")] = Except.error () ∧
    (Except.error () : Except Unit ℚ) ≠ Except.ok 0 :=
  ⟨rfl, fun h => Except.noConfusion h⟩

/-- C7 amended: `score` of an empty bucket is 0 for any weight map; and
for every bucket in which no category OF THE WEIGHT MAP reads a truthy
(non-empty) string value — values stored under unweighted categories are
never consulted and may be arbitrary — `score` returns exactly the sum
over the weight map's categories of the bucket's value (absent, null, and
empty-string values reading as 0) times the weight, rounded to 2 decimal
places, without raising. A truthy string under a weighted category raises
instead (see the counterexample). -/
theorem score_sum_formula :
    (∀ weights : List (String × ℤ), scoreWith weights [] = Except.ok 0) ∧
    (∀ (weights : List (String × ℤ)) (b : StatBucket),
        numericAtKeys weights b = true →
        scoreWith weights b = Except.ok (round2 (rawScore weights b))) := by
  constructor
  · intro w
    simp [scoreWith]
  · intro w b hb
    exact scoreWith_numericAt w hb

/-- Witness for C7's amended theorem: a bucket carrying a junk string
under an UNWEIGHTED category ("FOO") together with a numeric weighted
stat; the score is still computed without raising. -/
theorem score_sum_formula_witness :
    calculate_fantasy_points
        [("FOO", PyVal.str "junk"), ("PTS", PyVal.num 3)]
      = Except.ok (round2 (rawScore SCORING_WEIGHTS
          [("FOO", PyVal.str "junk"), ("PTS", PyVal.num 3)])) :=
  score_sum_formula.2 SCORING_WEIGHTS
    [("FOO", PyVal.str "junk"), ("PTS", PyVal.num 3)] (by decide)

/-- Counterexample to C8: two players whose raw (un-rounded) fantasy
scores are 0.123 each. The code rounds each player's FPTS to 0.12 inside
`calculate_fantasy_points` before summing (team value 0.24), while the
claimed single team-level rounding of the exact sum 0.246 gives 0.25. -/
theorem team_fpts_double_rounding_cex :
    team_fpts_rollup [[("PTS", PyVal.num (123/1000))], [("PTS", PyVal.num (123/1000))]]
      = Except.ok (6/25) ∧
    specTeamFPTS [[("PTS", PyVal.num (123/1000))], [("PTS", PyVal.num (123/1000))]]
      = 1/4 ∧
    (6/25 : ℚ) ≠ 1/4 := by
  have hraw : rawScore SCORING_WEIGHTS [("PTS", PyVal.num (123/1000))] = 123/1000 := by
    simp [rawScore, SCORING_WEIGHTS, specVal, pyLookup]
  refine ⟨?_, ?_, by norm_num⟩
  · rw [team_fpts_rollup_numeric (by decide)]
    simp only [List.map_cons, List.map_nil, List.sum_cons, List.sum_nil, hraw]
    norm_num [round2, round_eq, Rat.floor_def]
  · simp only [specTeamFPTS, List.map_cons, List.map_nil, List.sum_cons,
      List.sum_nil, hraw]
    norm_num [round2, round_eq, Rat.floor_def]

/-- C8 amended: team rollups are the arithmetic sum of the roster's
player-level figures with missing values defaulting to 0 and a rounding
to 2 decimals at the team level; per-category player values enter the sum
un-rounded, but each player's FPTS enters already rounded to 2 decimals
by `calculate_fantasy_points`, so FPTS is rounded at the player level and
again at the team level. -/
theorem team_rollup_sum_spec :
    (∀ (cat : String) (buckets : List StatBucket),
        (∀ b ∈ buckets, numericBucket b = true) →
        team_stat_rollup cat buckets = Except.ok (specTeamStat cat buckets)) ∧
    (∀ buckets : List StatBucket,
        (∀ b ∈ buckets, numericBucket b = true) →
        team_fpts_rollup buckets
          = Except.ok (round2 ((buckets.map
              (fun b => round2 (rawScore SCORING_WEIGHTS b))).sum))) :=
  ⟨fun cat _ h => team_stat_rollup_numeric cat h,
   fun _ h => team_fpts_rollup_numeric h⟩

/-- Witness for C8's amended theorem at a concrete two-player roster. -/
theorem team_rollup_sum_spec_witness :
    team_stat_rollup "PTS" [[("PTS", PyVal.num 3)], [("REB", PyVal.num 2)]]
      = Except.ok (specTeamStat "PTS" [[("PTS", PyVal.num 3)], [("REB", PyVal.num 2)]]) :=
  team_rollup_sum_spec.1 "PTS" [[("PTS", PyVal.num 3)], [("REB", PyVal.num 2)]] (by decide)

end FantasyApi

namespace FantasyApi

theorem rawScore_pts100 :
    rawScore SCORING_WEIGHTS [("PTS", PyVal.num 100)] = 100 := by
  simp [rawScore, SCORING_WEIGHTS, specVal, pyLookup]

theorem round2_100 : round2 (100 : ℚ) = 100 := by
  norm_num [round2, round_eq, Rat.floor_def]

/-- C1 (code bug): the rollup feeding `projected_weekly_totals` (lines
271-275 / 332-338) never multiplies by `games_this_week`. A player with
an empty schedule (0 games this week) and a season projected-total bucket
of 100 PTS still contributes 100 to the team's projected weekly PTS and
100.0 to its projected weekly FPTS, where the claim requires 0. -/
theorem projected_weekly_ignores_schedule :
    gamesThisWeek 2 [] = 0 ∧
    team_stat_rollup "PTS" [[("PTS", PyVal.num 100)]] = Except.ok 100 ∧
    team_fpts_rollup [[("PTS", PyVal.num 100)]] = Except.ok 100 ∧
    (100 : ℚ) ≠ 0 := by
  refine ⟨rfl, ?_, ?_, by norm_num⟩
  · rw [team_stat_rollup_numeric "PTS" (by decide)]
    simp only [specTeamStat, List.map_cons, List.map_nil, List.sum_cons, List.sum_nil]
    norm_num [specVal, pyLookup, round2, round_eq, Rat.floor_def]
  · rw [team_fpts_rollup_numeric (by decide)]
    simp only [List.map_cons, List.map_nil, List.sum_cons, List.sum_nil,
      rawScore_pts100, round2_100]
    norm_num [round2_100]

theorem calc_pts10_gp2 :
    calculate_fantasy_points [("PTS", PyVal.num 10), ("GP", PyVal.num 2)]
      = Except.ok 10 := by
  rw [calculate_fantasy_points_numeric (by decide)]
  have hraw : rawScore SCORING_WEIGHTS [("PTS", PyVal.num 10), ("GP", PyVal.num 2)] = 10 := by
    simp [rawScore, SCORING_WEIGHTS, specVal, pyLookup]
  rw [hraw]
  norm_num [round2, round_eq, Rat.floor_def]

/-- Counterexample to C2: a player with an explicit per-game
fantasy-point projection of 50 (and a season-total projection of 400):
the claimed priority chain yields 50, but the code's
`fantasy_points_per_game` ignores all projections and returns
`round(calculate_fantasy_points(total_stats) / GP, 2)` = 10 / 2 = 5 from
the actual season stats. -/
theorem per_game_estimate_ignores_projections_cex :
    fantasy_points_per_game [("PTS", PyVal.num 10), ("GP", PyVal.num 2)]
      = Except.ok 5 ∧
    claimed_per_game_estimate (some 50) (some 400) (some 50) = some 50 ∧
    (5 : ℚ) ≠ 50 := by
  refine ⟨?_, rfl, by norm_num⟩
  simp only [fantasy_points_per_game, calc_pts10_gp2]
  have hgp : pyLookup [("PTS", PyVal.num 10), ("GP", PyVal.num 2)] "GP"
      = some (PyVal.num 2) := by simp [pyLookup]
  rw [hgp]
  norm_num [round2, round_eq, Rat.floor_def]

/-- C2 amended: the per-game fantasy-point value of `rosters_detailed` is
computed from actual season stats only — `calculate_fantasy_points` of
the `total` bucket divided by its `GP` entry and rounded, when `GP` is a
number greater than 0, and 0 when `GP` is absent or not positive; no
projection, estimated-games rounding, 82-game default, or null result
exists in the code. -/
theorem fantasy_points_per_game_spec (stats : StatBucket) (q : ℚ)
    (hq : calculate_fantasy_points stats = Except.ok q) :
    (pyLookup stats "GP" = Option.none →
        fantasy_points_per_game stats = Except.ok 0) ∧
    (∀ g : ℚ, pyLookup stats "GP" = some (PyVal.num g) →
        fantasy_points_per_game stats
          = Except.ok (if 0 < g then round2 (q / g) else 0)) := by
  constructor
  · intro hgp
    simp [fantasy_points_per_game, hq, hgp]
  · intro g hgp
    by_cases h : 0 < g <;> simp [fantasy_points_per_game, hq, hgp, h]

/-- Witness for C2's amended theorem at the concrete player of the
counterexample. -/
theorem fantasy_points_per_game_spec_witness :
    fantasy_points_per_game [("PTS", PyVal.num 10), ("GP", PyVal.num 2)]
      = Except.ok (if (0 : ℚ) < 2 then round2 (10 / 2) else 0) :=
  (fantasy_points_per_game_spec [("PTS", PyVal.num 10), ("GP", PyVal.num 2)]
    10 calc_pts10_gp2).2 2 (by simp [pyLookup])

end FantasyApi

namespace FantasyApi

/-- Counterexample to C3: a player whose nested year-keyed projection
entry is PRESENT but holds an empty `total` bucket, with a non-empty
legacy `projected_total`. The claim's "nested if present" chain resolves
to the empty nested bucket, but the code's Python `or` chain (truthiness)
skips the empty dict and picks the legacy bucket. -/
theorem projection_fallback_presence_cex :
    resolveProjTotal
        ⟨some ⟨some [], Option.none⟩, some [("PTS", PyVal.num 5)], Option.none⟩
      = [("PTS", PyVal.num 5)] ∧
    claimedResolveProjTotal
        ⟨some ⟨some [], Option.none⟩, some [("PTS", PyVal.num 5)], Option.none⟩
      = [] ∧
    ([("PTS", PyVal.num 5)] : StatBucket) ≠ [] :=
  ⟨rfl, rfl, by simp⟩

/-- C3 amended: the buckets are resolved by the ordered fallback "nested
year-keyed bucket if present AND non-empty, else legacy flat bucket if
present and non-empty, else empty" (Python `or` truthiness); and the
choice for the `total` variant depends only on the total-side fields,
independently of the `avg` variant's fields, and vice versa. -/
theorem projection_fallback_nonempty_chain :
    (∀ p : ProjSource, resolveProjTotal p = amendedResolveProjTotal p) ∧
    (∀ p : ProjSource, resolveProjAvg p = amendedResolveProjAvg p) ∧
    (∀ p p' : ProjSource,
        p.yearProjected.bind (fun yp => yp.total)
          = p'.yearProjected.bind (fun yp => yp.total) →
        p.projected_total = p'.projected_total →
        resolveProjTotal p = resolveProjTotal p') ∧
    (∀ p p' : ProjSource,
        p.yearProjected.bind (fun yp => yp.avg)
          = p'.yearProjected.bind (fun yp => yp.avg) →
        p.projected_avg = p'.projected_avg →
        resolveProjAvg p = resolveProjAvg p') := by
  refine ⟨?_, ?_, ?_, ?_⟩
  · intro p
    cases h : p.yearProjected.bind (fun yp => yp.total) with
    | none =>
      cases h2 : p.projected_total with
      | none => simp [resolveProjTotal, amendedResolveProjTotal, yearProjTotal, h, h2]
      | some l =>
        by_cases hl : l = [] <;>
          simp [resolveProjTotal, amendedResolveProjTotal, yearProjTotal, h, h2, hl]
    | some bkt =>
      by_cases hb : bkt = [] <;>
        cases h2 : p.projected_total with
        | none => simp [resolveProjTotal, amendedResolveProjTotal, yearProjTotal, h, h2, hb]
        | some l =>
          by_cases hl : l = [] <;>
            simp [resolveProjTotal, amendedResolveProjTotal, yearProjTotal, h, h2, hb, hl]
  · intro p
    cases h : p.yearProjected.bind (fun yp => yp.avg) with
    | none =>
      cases h2 : p.projected_avg with
      | none => simp [resolveProjAvg, amendedResolveProjAvg, yearProjAvg, h, h2]
      | some l =>
        by_cases hl : l = [] <;>
          simp [resolveProjAvg, amendedResolveProjAvg, yearProjAvg, h, h2, hl]
    | some bkt =>
      by_cases hb : bkt = [] <;>
        cases h2 : p.projected_avg with
        | none => simp [resolveProjAvg, amendedResolveProjAvg, yearProjAvg, h, h2, hb]
        | some l =>
          by_cases hl : l = [] <;>
            simp [resolveProjAvg, amendedResolveProjAvg, yearProjAvg, h, h2, hb, hl]
  · intro p p' h1 h2
    simp [resolveProjTotal, yearProjTotal, h1, h2]
  · intro p p' h1 h2
    simp [resolveProjAvg, yearProjAvg, h1, h2]

/-- Witness for C3's amended theorem: two players differing only in their
avg-side projection fields resolve the same `total` bucket. -/
theorem projection_fallback_nonempty_chain_witness :
    resolveProjTotal
        ⟨Option.none, some [("PTS", PyVal.num 1)], some [("AST", PyVal.num 9)]⟩
      = resolveProjTotal ⟨Option.none, some [("PTS", PyVal.num 1)], Option.none⟩ :=
  projection_fallback_nonempty_chain.2.2.1
    ⟨Option.none, some [("PTS", PyVal.num 1)], some [("AST", PyVal.num 9)]⟩
    ⟨Option.none, some [("PTS", PyVal.num 1)], Option.none⟩ rfl rfl

end FantasyApi

namespace FantasyApi

/-- Counterexample to C9: invoke at Tuesday noon (t = 3/2 days after an
epoch Monday 00:00). The code's window starts Monday 12:00 (`start_of_week`
keeps the time of day), so a game dated Monday 06:00 (1/4) is NOT
counted, while the claim's Monday-00:00 window counts it; and the code's
window start is 1/2, not the claimed Monday midnight 0. -/
theorem weekly_window_time_of_day_cex :
    gamesThisWeek (3/2) [some (1/4)] = 0 ∧
    claimedGamesThisWeek (3/2) [some (1/4)] = 1 ∧
    startOfWeek (3/2) = 1/2 ∧
    mondayMidnight (3/2) = 0 ∧
    (1/2 : ℚ) ≠ 0 := by
  have hw : weekday (3/2) = 1 := by norm_num [weekday, Rat.floor_def]
  have hs : startOfWeek (3/2 : ℚ) = 1/2 := by
    rw [startOfWeek, hw]
    norm_num
  have he : endOfWeek (3/2 : ℚ) = 13/2 := by
    rw [endOfWeek, hs]
    norm_num
  have hm : mondayMidnight (3/2 : ℚ) = 0 := by
    rw [mondayMidnight, hw]
    norm_num [Rat.floor_def]
  refine ⟨?_, ?_, hs, hm, by norm_num⟩
  · rw [gamesThisWeek_cons_some, gamesThisWeek_nil, hs, he]
    norm_num
  · have d1 : decide ((0 : ℚ) ≤ 1/4) = true := decide_eq_true (by norm_num)
    have d2 : decide ((1/4 : ℚ) < 0 + 7) = true := decide_eq_true (by norm_num)
    have hfil : claimedGameInWindow (3/2) (some (1/4)) = true := by
      show (decide (mondayMidnight (3/2) ≤ (1/4 : ℚ))
          && decide ((1/4 : ℚ) < mondayMidnight (3/2) + 7)) = true
      rw [hm, d1, d2]
      rfl
    simp only [claimedGamesThisWeek, List.filter_cons, hfil, if_true,
      List.filter_nil, List.length_cons, List.length_nil]

/-- C9 amended: the code's weekly window starts at `today` minus its
weekday (a Monday carrying the INVOCATION'S time of day, not 00:00): its
floor is a Monday (`% 7 = 0`), its fractional (time-of-day) part equals
today's, and it is the latest such point at most `today`; the window end
is start + 6 days; and `games_this_week` counts a schedule entry exactly
when its date lies in the closed interval [start, end] — so a Monday game
earlier in the day than the invocation time, or a Sunday game later in
the day, is not counted. -/
theorem weekly_window_amended (t : ℚ) :
    ⌊startOfWeek t⌋ % 7 = 0 ∧
    startOfWeek t - (⌊startOfWeek t⌋ : ℚ) = t - (⌊t⌋ : ℚ) ∧
    startOfWeek t ≤ t ∧
    t < startOfWeek t + 7 ∧
    endOfWeek t = startOfWeek t + 6 ∧
    (∀ (sched : List (Option ℚ)) (d : ℚ),
        gamesThisWeek t (some d :: sched)
          = (if startOfWeek t ≤ d ∧ d ≤ endOfWeek t then 1 else 0)
            + gamesThisWeek t sched) ∧
    (∀ sched : List (Option ℚ),
        gamesThisWeek t (Option.none :: sched) = gamesThisWeek t sched) :=
  ⟨startOfWeek_monday t, startOfWeek_frac t, startOfWeek_le t,
   lt_startOfWeek_add_seven t, rfl,
   fun sched d => gamesThisWeek_cons_some t d sched,
   fun sched => gamesThisWeek_cons_none t sched⟩

end FantasyApi
